import Mathlib

/-!
Shallow embedding of `src/github/resource_github_team.go` from
Flaconi/terraform-provider-github: the CRUD functions of the `github_team`
resource (`resourceGithubTeamCreate`, `resourceGithubTeamRead`,
`resourceGithubTeamUpdate`, `resourceGithubTeamDelete`) together with their
bounded retry loops.

Remote calls are modelled as oracles: an attempt-indexed function
`Nat → Except GHErr α` for calls that sit inside a retry loop (the n-th
value is the outcome of the n-th issue of that call), and a plain
`Except GHErr α` for calls issued at most once.  Each embedded operation
additionally returns instrumentation (how many times each remote call was
issued, and the list of sleep durations), which mirrors the source's
control flow and lets theorems speak about call counts and backoff.
`checkOrganization` is a local configuration check (no remote call) and is
modelled as passing.
-/

namespace GithubTeam

/-- Mirrors `const github_team_api_retry = 10` (line 24 of the source). -/
def github_team_api_retry : Nat := 10

/-- Mirrors `const github_team_api_wait = 5` (line 25 of the source), in seconds. -/
def github_team_api_wait : Nat := 5

/-- Mirrors `http.StatusNotModified`. -/
def statusNotModified : Nat := 304

/-- Mirrors `http.StatusNotFound`. -/
def statusNotFound : Nat := 404

/-- Errors returned by the remote client.  `errorResponse` models a
`*github.ErrorResponse` carrying an HTTP status code (the only error type the
source inspects, via the type assertion `err.(*github.ErrorResponse)`);
`other` models any Go error that is not a `*github.ErrorResponse` (network
failure, rate-limit error, ...); `unconvertibleId` models the value built by
`unconvertibleIdErr(d.Id(), err)`. -/
inductive GHErr where
  | errorResponse (status : Nat)
  | other (msg : String)
  | unconvertibleId (s : String)
  deriving DecidableEq, Repr

/-- The remote team object, as read through the go-github getters used by the
source (`GetID`, `GetName`, `GetDescription`, `GetPrivacy`, `Parent`,
`GetLDAPDN`, `GetSlug`, `GetNodeID`, `GetMembersCount`). -/
structure Team where
  id : Int
  name : String
  description : String
  privacy : String
  parent : Option Int
  ldapDN : String
  slug : String
  nodeId : String
  membersCount : Int
  deriving DecidableEq, Repr

/-- The transport metadata of a response; the source only reads
`resp.Header.Get("ETag")`. -/
structure Response where
  etag : String
  deriving DecidableEq, Repr

/-- Mirrors the `github.NewTeam` value built by Create/Update. -/
structure NewTeam where
  name : String
  description : String
  privacy : String
  parentTeamID : Option Int
  deriving DecidableEq, Repr

/-- The Terraform `*schema.ResourceData` fields that the source reads or
writes.  `rid` is `d.Id()`. -/
structure ResourceData where
  rid : String
  name : String
  description : String
  privacy : String
  parent_team_id : String
  ldap_dn : String
  create_default_maintainer : Bool
  slug : String
  etag : String
  node_id : String
  members_count : Int
  deriving DecidableEq, Repr

/-- Decimal value of a digit character, `none` on a non-digit.  Used to model
`strconv.ParseInt(s, 10, 64)`. -/
def digitVal (c : Char) : Option Nat :=
  if ('0' ≤ c ∧ c ≤ '9') then some (c.toNat - '0'.toNat) else none

/-- Parses a non-empty all-digit character list as a natural number. -/
def parseNatDigits (cs : List Char) : Option Nat :=
  match cs with
  | [] => none
  | _ => cs.foldlM (fun acc c => (digitVal c).map (fun dv => acc * 10 + dv)) 0

def int64Min : Int := -(2 ^ 63)

def int64Max : Int := 2 ^ 63 - 1

/-- Models `strconv.ParseInt(s, 10, 64)`: an optional sign followed by at
least one decimal digit, within the int64 range; `none` models a parse
error. -/
def parseInt64 (s : String) : Option Int :=
  let signed : Bool × List Char :=
    match s.toList with
    | '-' :: rest => (true, rest)
    | '+' :: rest => (false, rest)
    | rest => (false, rest)
  match parseNatDigits signed.2 with
  | none => none
  | some n =>
    let v : Int := if signed.1 then -(n : Int) else (n : Int)
    if (int64Min ≤ v ∧ v ≤ int64Max) then some v else none

/-- Models `strconv.FormatInt(i, 10)`. -/
def formatInt (i : Int) : String := toString i

/-- Outcome of one `client.Teams.GetTeamByID` call. -/
abbrev GetOutcome := Except GHErr (Team × Response)

/-- The retry loop of `resourceGithubTeamRead` (source lines 193-216), with
the loop counter replaced by the remaining iteration count `fuel`
(initially `github_team_api_retry`).  `g n` is the outcome of the n-th
`GetTeamByID` call overall; `cur` is the current `(team, resp, err)` value
and `next` the index of the next call to issue.

The result's first component is `Sum.inl e` when the loop body returns from
the whole function (`return nil` on a not-modified response, modelled as
`e = none`, and `return err` for an error that is not a
`*github.ErrorResponse`, modelled as `e = some _`), and `Sum.inr last` when
control reaches the code after the loop (break on success, or fuel
exhausted) with `last` the final `(team, resp, err)`.  The second and third
components count the calls issued inside the loop and list the sleep
durations. -/
def readLoop (g : Nat → GetOutcome) (cur : GetOutcome) (next : Nat) :
    Nat → Sum (Option GHErr) GetOutcome × Nat × List Nat
  | 0 => (Sum.inr cur, 0, [])
  | fuel + 1 =>
    match cur with
    | Except.ok tr => (Sum.inr (Except.ok tr), 0, [])
    | Except.error (GHErr.errorResponse status) =>
      if status = statusNotModified then
        (Sum.inl none, 0, [])
      else
        -- the source's 404 branch and its generic-status branch both sleep
        -- for github_team_api_wait seconds and re-issue the call; they
        -- differ only in the log message
        let r := readLoop g (g next) (next + 1) fuel
        (r.1, r.2.1 + 1, github_team_api_wait :: r.2.2)
    | Except.error e =>
      -- the type assertion err.(*github.ErrorResponse) failed: return err
      (Sum.inl (some e), 0, [])

/-- Writes the fetched team into the resource data, mirroring the
`d.Set(...)` block of `resourceGithubTeamRead` (source lines 232-244). -/
def applyTeam (d : ResourceData) (team : Team) (resp : Response) : ResourceData :=
  { d with
    etag := resp.etag
    description := team.description
    name := team.name
    privacy := team.privacy
    parent_team_id :=
      match team.parent with
      | some pid => formatInt pid
      | none => ""
    ldap_dn := team.ldapDN
    slug := team.slug
    node_id := team.nodeId
    members_count := team.membersCount }

/-- The code of `resourceGithubTeamRead` after the retry loop (source lines
217-246), plus the two in-loop early returns routed through `Sum.inl`:
returns the function's error result and the final resource data. -/
def readFinish (d : ResourceData) (res : Sum (Option GHErr) GetOutcome) :
    Option GHErr × ResourceData :=
  match res with
  | Sum.inl e => (e, d)
  | Sum.inr (Except.error (GHErr.errorResponse status)) =>
    if status = statusNotModified then (none, d)
    else if status = statusNotFound then (none, { d with rid := "" })
    else (some (GHErr.errorResponse status), d)
  | Sum.inr (Except.error e) => (some e, d)
  | Sum.inr (Except.ok (team, resp)) => (none, applyTeam d team resp)

/-- Result of an embedded Read: returned error (`none` = nil), final resource
data, number of `GetTeamByID` calls issued, sleep durations. -/
structure RunResult where
  err : Option GHErr
  d : ResourceData
  calls : Nat
  sleeps : List Nat
  deriving DecidableEq, Repr

/-- Embeds `resourceGithubTeamRead` (source lines 165-247).  `g` is the
oracle for `client.Teams.GetTeamByID`; the etag/`ctxEtag` conditional-request
plumbing is reflected in the oracle's outcomes (a not-modified response is
`Except.error (GHErr.errorResponse statusNotModified)`). -/
def resourceGithubTeamRead (g : Nat → GetOutcome) (d : ResourceData) : RunResult :=
  match parseInt64 d.rid with
  | none => ⟨some (GHErr.unconvertibleId d.rid), d, 0, []⟩
  | some _ =>
    let first := g 0
    let lr := readLoop g first 1 github_team_api_retry
    let fin := readFinish d lr.1
    ⟨fin.1, fin.2, lr.2.1 + 1, lr.2.2⟩

/-- The parent-team resolution retry loop of `resourceGithubTeamCreate`
(source lines 117-127): on any error, sleep and re-issue `getTeamID`;
on success, break.  `g n` is the outcome of the n-th `getTeamID` call. -/
def createParentLoop (g : Nat → Except GHErr Int) (cur : Except GHErr Int) (next : Nat) :
    Nat → Except GHErr Int × Nat × List Nat
  | 0 => (cur, 0, [])
  | fuel + 1 =>
    match cur with
    | Except.error _ =>
      let r := createParentLoop g (g next) (next + 1) fuel
      (r.1, r.2.1 + 1, github_team_api_wait :: r.2.2)
    | Except.ok v => (Except.ok v, 0, [])

/-- The initial `getTeamID` call plus the retry loop of Create (source lines
116-127): returns the final outcome, the total number of `getTeamID` calls,
and the sleep durations. -/
def resolveParentCreate (g : Nat → Except GHErr Int) : Except GHErr Int × Nat × List Nat :=
  let first := g 0
  let r := createParentLoop g first 1 github_team_api_retry
  (r.1, r.2.1 + 1, r.2.2)

/-- The parent-team resolution retry loop of `resourceGithubTeamUpdate`
(source lines 274-284), transcribed from its own occurrence; it is
character-for-character the same loop as the one in Create. -/
def updateParentLoop (g : Nat → Except GHErr Int) (cur : Except GHErr Int) (next : Nat) :
    Nat → Except GHErr Int × Nat × List Nat
  | 0 => (cur, 0, [])
  | fuel + 1 =>
    match cur with
    | Except.error _ =>
      let r := updateParentLoop g (g next) (next + 1) fuel
      (r.1, r.2.1 + 1, github_team_api_wait :: r.2.2)
    | Except.ok v => (Except.ok v, 0, [])

/-- The initial `getTeamID` call plus the retry loop of Update (source lines
273-284). -/
def resolveParentUpdate (g : Nat → Except GHErr Int) : Except GHErr Int × Nat × List Nat :=
  let first := g 0
  let r := updateParentLoop g first 1 github_team_api_retry
  (r.1, r.2.1 + 1, r.2.2)

/-- Instrumentation for Create: how many times each remote call was issued,
which `github.NewTeam` value was passed to `client.Teams.CreateTeam` (`none`
when the create call was never reached), and the sleep durations. -/
structure CreateTrace where
  parentLookupCalls : Nat
  createCalls : Nat
  createdArg : Option NewTeam
  maintainerCalls : Nat
  ldapCalls : Nat
  readCalls : Nat
  sleeps : List Nat
  deriving DecidableEq, Repr

/-- Result of an embedded Create. -/
structure CreateResult where
  err : Option GHErr
  d : ResourceData
  trace : CreateTrace
  deriving DecidableEq, Repr

/-- The part of `resourceGithubTeamCreate` after parent resolution (source
lines 134-162): the single `CreateTeam` call, the conditional
`removeDefaultMaintainer` call (only when `create_default_maintainer` is
false), the conditional `UpdateTeamLDAPMapping` call (only when `ldap_dn` is
non-empty), then `d.SetId` followed by `resourceGithubTeamRead`.  `ct` is
the oracle for `CreateTeam`, `maint` for `removeDefaultMaintainer` (whose
own remote calls are not individually modelled: the source propagates its
first error and nothing in Create inspects its internals), `ldap` for
`UpdateTeamLDAPMapping`, and `get` for the `GetTeamByID` calls of the final
Read. -/
def createAfterParent (ct : NewTeam → Except GHErr Team) (maint : Except GHErr Unit)
    (ldap : Except GHErr Unit) (get : Nat → GetOutcome)
    (d : ResourceData) (newTeam : NewTeam) (pcalls : Nat) (psleeps : List Nat) : CreateResult :=
  match ct newTeam with
  | Except.error e => ⟨some e, d, ⟨pcalls, 1, some newTeam, 0, 0, 0, psleeps⟩⟩
  | Except.ok team =>
    let maintRes : Except GHErr Unit :=
      if d.create_default_maintainer then Except.ok () else maint
    let maintCalls : Nat := if d.create_default_maintainer then 0 else 1
    match maintRes with
    | Except.error e => ⟨some e, d, ⟨pcalls, 1, some newTeam, maintCalls, 0, 0, psleeps⟩⟩
    | Except.ok _ =>
      let ldapRes : Except GHErr Unit := if d.ldap_dn = "" then Except.ok () else ldap
      let ldapCalls : Nat := if d.ldap_dn = "" then 0 else 1
      match ldapRes with
      | Except.error e =>
        ⟨some e, d, ⟨pcalls, 1, some newTeam, maintCalls, ldapCalls, 0, psleeps⟩⟩
      | Except.ok _ =>
        let d1 := { d with rid := formatInt team.id }
        let rr := resourceGithubTeamRead get d1
        ⟨rr.err, rr.d,
          ⟨pcalls, 1, some newTeam, maintCalls, ldapCalls, rr.calls, psleeps ++ rr.sleeps⟩⟩

/-- Embeds `resourceGithubTeamCreate` (source lines 92-163).  `d.GetOk` on a
string field reports present exactly when the value is non-empty, so the
parent branch is taken when `parent_team_id` is non-empty. -/
def resourceGithubTeamCreate (g : Nat → Except GHErr Int)
    (ct : NewTeam → Except GHErr Team) (maint : Except GHErr Unit)
    (ldap : Except GHErr Unit) (get : Nat → GetOutcome)
    (d : ResourceData) : CreateResult :=
  let newTeam : NewTeam :=
    { name := d.name, description := d.description, privacy := d.privacy,
      parentTeamID := none }
  if d.parent_team_id = "" then
    createAfterParent ct maint ldap get d newTeam 0 []
  else
    let pr := resolveParentCreate g
    match pr.1 with
    | Except.error e => ⟨some e, d, ⟨pr.2.1, 0, none, 0, 0, 0, pr.2.2⟩⟩
    | Except.ok pid =>
      createAfterParent ct maint ldap get d { newTeam with parentTeamID := some pid }
        pr.2.1 pr.2.2

/-- Instrumentation for Update. -/
structure UpdateTrace where
  parentLookupCalls : Nat
  editCalls : Nat
  ldapCalls : Nat
  readCalls : Nat
  sleeps : List Nat
  deriving DecidableEq, Repr

/-- Result of an embedded Update. -/
structure UpdateResult where
  err : Option GHErr
  d : ResourceData
  trace : UpdateTrace
  deriving DecidableEq, Repr

/-- The part of `resourceGithubTeamUpdate` after parent resolution (source
lines 292-316): parse the stored id (note this happens only after the parent
loop), the single `EditTeamByID` call, the conditional
`UpdateTeamLDAPMapping` call (only when `d.HasChange("ldap_dn")`, modelled
by the boolean `hasChangeLdap`; the call is made regardless of the field's
value), then `d.SetId` followed by `resourceGithubTeamRead`. -/
def updateAfterParent (et : Int → NewTeam → Except GHErr Team)
    (ldap : Except GHErr Unit) (get : Nat → GetOutcome) (hasChangeLdap : Bool)
    (d : ResourceData) (editedTeam : NewTeam) (pcalls : Nat) (psleeps : List Nat) :
    UpdateResult :=
  match parseInt64 d.rid with
  | none => ⟨some (GHErr.unconvertibleId d.rid), d, ⟨pcalls, 0, 0, 0, psleeps⟩⟩
  | some teamId =>
    match et teamId editedTeam with
    | Except.error e => ⟨some e, d, ⟨pcalls, 1, 0, 0, psleeps⟩⟩
    | Except.ok team =>
      let ldapRes : Except GHErr Unit := if hasChangeLdap then ldap else Except.ok ()
      let ldapCalls : Nat := if hasChangeLdap then 1 else 0
      match ldapRes with
      | Except.error e => ⟨some e, d, ⟨pcalls, 1, ldapCalls, 0, psleeps⟩⟩
      | Except.ok _ =>
        let d1 := { d with rid := formatInt team.id }
        let rr := resourceGithubTeamRead get d1
        ⟨rr.err, rr.d, ⟨pcalls, 1, ldapCalls, rr.calls, psleeps ++ rr.sleeps⟩⟩

/-- Embeds `resourceGithubTeamUpdate` (source lines 249-317). -/
def resourceGithubTeamUpdate (g : Nat → Except GHErr Int)
    (et : Int → NewTeam → Except GHErr Team) (ldap : Except GHErr Unit)
    (get : Nat → GetOutcome) (hasChangeLdap : Bool) (d : ResourceData) : UpdateResult :=
  let editedTeam : NewTeam :=
    { name := d.name, description := d.description, privacy := d.privacy,
      parentTeamID := none }
  if d.parent_team_id = "" then
    updateAfterParent et ldap get hasChangeLdap d editedTeam 0 []
  else
    let pr := resolveParentUpdate g
    match pr.1 with
    | Except.error e => ⟨some e, d, ⟨pr.2.1, 0, 0, 0, pr.2.2⟩⟩
    | Except.ok pid =>
      updateAfterParent et ldap get hasChangeLdap d
        { editedTeam with parentTeamID := some pid } pr.2.1 pr.2.2

/-- Result of an embedded Delete. -/
structure DeleteResult where
  err : Option GHErr
  d : ResourceData
  deleteCalls : Nat
  getCalls : Nat
  deriving DecidableEq, Repr

/-- Embeds `resourceGithubTeamDelete` (source lines 319-361).  `del` is the
outcome of the single `DeleteTeamByID` call and `refetch` the outcome of the
confirming `GetTeamByID` call.  Note that in the source the statement
`_, _, err = client.Teams.GetTeamByID(ctx, orgId, id)` reassigns the same
`err` variable that held the delete error, so when the re-fetch succeeds
the function falls through to `return err` with `err == nil` and reports
success, and when the re-fetch fails with anything other than a 404
`*github.ErrorResponse` the function returns the re-fetch error; the
original delete error is never returned. -/
def resourceGithubTeamDelete (del : Except GHErr Unit) (refetch : Except GHErr Team)
    (d : ResourceData) : DeleteResult :=
  match parseInt64 d.rid with
  | none => ⟨some (GHErr.unconvertibleId d.rid), d, 0, 0⟩
  | some _ =>
    match del with
    | Except.ok _ => ⟨none, d, 1, 0⟩
    | Except.error _ =>
      match refetch with
      | Except.ok _ => ⟨none, d, 1, 1⟩
      | Except.error (GHErr.errorResponse status) =>
        if status = statusNotFound then ⟨none, { d with rid := "" }, 1, 1⟩
        else ⟨some (GHErr.errorResponse status), d, 1, 1⟩
      | Except.error e => ⟨some e, d, 1, 1⟩

/-! ## Lemmas about the retry loops -/

theorem createParentLoop_ok (g : Nat → Except GHErr Int) (v : Int) (fuel next : Nat) :
    createParentLoop g (Except.ok v) next fuel = (Except.ok v, 0, []) := by
  cases fuel with
  | zero => rfl
  | succ m => rfl

theorem createParentLoop_success (g : Nat → Except GHErr Int) (v : Int) :
    ∀ (k fuel next : Nat) (e0 : GHErr), k < fuel →
    (∀ j, j < k → ∃ e, g (next + j) = Except.error e) →
    g (next + k) = Except.ok v →
    createParentLoop g (Except.error e0) next fuel =
      (Except.ok v, k + 1, List.replicate (k + 1) github_team_api_wait) := by
  intro k
  induction k with
  | zero =>
    intro fuel next e0 hk hpre hok
    cases fuel with
    | zero => omega
    | succ m =>
      have h0 : g next = Except.ok v := by simpa using hok
      simp [createParentLoop, h0, createParentLoop_ok, List.replicate]
  | succ k2 ih =>
    intro fuel next e0 hk hpre hok
    cases fuel with
    | zero => omega
    | succ m =>
      obtain ⟨e1, he1⟩ := hpre 0 (Nat.succ_pos k2)
      have he1x : g next = Except.error e1 := by simpa using he1
      have hrec := ih m (next + 1) e1 (by omega)
        (fun j hj => by
          obtain ⟨e2, he2⟩ := hpre (j + 1) (by omega)
          exact ⟨e2, by rw [show next + 1 + j = next + (j + 1) by omega]; exact he2⟩)
        (by rw [show next + 1 + k2 = next + (k2 + 1) by omega]; exact hok)
      simp [createParentLoop, he1x, hrec, List.replicate_succ]

theorem createParentLoop_exhaust (g : Nat → Except GHErr Int) :
    ∀ (fuel next : Nat) (e0 elast : GHErr), 0 < fuel →
    (∀ j, j < fuel → ∃ e, g (next + j) = Except.error e) →
    g (next + (fuel - 1)) = Except.error elast →
    createParentLoop g (Except.error e0) next fuel =
      (Except.error elast, fuel, List.replicate fuel github_team_api_wait) := by
  intro fuel
  induction fuel with
  | zero => intro next e0 elast h; omega
  | succ m ih =>
    intro next e0 elast hpos hall hlast
    cases Nat.eq_zero_or_pos m with
    | inl hm =>
      subst hm
      have h0 : g next = Except.error elast := by simpa using hlast
      simp [createParentLoop, h0, List.replicate]
    | inr hm =>
      obtain ⟨e1, he1⟩ := hall 0 (by omega)
      have he1x : g next = Except.error e1 := by simpa using he1
      have hrec := ih (next + 1) e1 elast hm
        (fun j hj => by
          obtain ⟨e2, he2⟩ := hall (j + 1) (by omega)
          exact ⟨e2, by rw [show next + 1 + j = next + (j + 1) by omega]; exact he2⟩)
        (by rw [show next + 1 + (m - 1) = next + (m + 1 - 1) by omega]; exact hlast)
      simp [createParentLoop, he1x, hrec, List.replicate_succ]

theorem createParentLoop_bounded (g : Nat → Except GHErr Int) :
    ∀ (fuel : Nat) (cur : Except GHErr Int) (next : Nat),
    ∃ n, n ≤ fuel ∧ (createParentLoop g cur next fuel).2.1 = n ∧
      (createParentLoop g cur next fuel).2.2 = List.replicate n github_team_api_wait := by
  intro fuel
  induction fuel with
  | zero => intro cur next; exact ⟨0, by omega, rfl, rfl⟩
  | succ m ih =>
    intro cur next
    cases cur with
    | ok v => exact ⟨0, by omega, rfl, rfl⟩
    | error e =>
      obtain ⟨n, hn, h1, h2⟩ := ih (g next) (next + 1)
      refine ⟨n + 1, by omega, ?_, ?_⟩
      · simp [createParentLoop, h1]
      · simp [createParentLoop, h2, List.replicate_succ]

theorem updateParentLoop_eq_createParentLoop (g : Nat → Except GHErr Int) :
    ∀ (fuel : Nat) (cur : Except GHErr Int) (next : Nat),
    updateParentLoop g cur next fuel = createParentLoop g cur next fuel := by
  intro fuel
  induction fuel with
  | zero => intro cur next; rfl
  | succ m ih =>
    intro cur next
    cases cur with
    | ok v => rfl
    | error e => simp [updateParentLoop, createParentLoop, ih]

theorem readLoop_ok (g : Nat → GetOutcome) (tr : Team × Response) (fuel next : Nat) :
    readLoop g (Except.ok tr) next fuel = (Sum.inr (Except.ok tr), 0, []) := by
  cases fuel with
  | zero => rfl
  | succ m => rfl

theorem readLoop_not_modified (g : Nat → GetOutcome) (next : Nat) :
    ∀ fuel, 0 < fuel →
    readLoop g (Except.error (GHErr.errorResponse statusNotModified)) next fuel =
      (Sum.inl none, 0, []) := by
  intro fuel hf
  cases fuel with
  | zero => omega
  | succ m => simp [readLoop]

theorem readLoop_all_not_found (g : Nat → GetOutcome) :
    ∀ (fuel next : Nat),
    (∀ j, j < fuel → g (next + j) = Except.error (GHErr.errorResponse statusNotFound)) →
    readLoop g (Except.error (GHErr.errorResponse statusNotFound)) next fuel =
      (Sum.inr (Except.error (GHErr.errorResponse statusNotFound)), fuel,
        List.replicate fuel github_team_api_wait) := by
  intro fuel
  induction fuel with
  | zero => intro next h; rfl
  | succ m ih =>
    intro next h
    have h0 : g next = Except.error (GHErr.errorResponse statusNotFound) := by
      simpa using h 0 (Nat.succ_pos m)
    have hrec := ih (next + 1) (fun j hj => by
      rw [show next + 1 + j = next + (j + 1) by omega]
      exact h (j + 1) (by omega))
    have hne : statusNotFound ≠ statusNotModified := by decide
    simp [readLoop, hne, h0, hrec, List.replicate_succ]

theorem readLoop_success (g : Nat → GetOutcome) (tr : Team × Response) :
    ∀ (k fuel next s0 : Nat), k < fuel → s0 ≠ statusNotModified →
    (∀ j, j < k →
      ∃ s, g (next + j) = Except.error (GHErr.errorResponse s) ∧ s ≠ statusNotModified) →
    g (next + k) = Except.ok tr →
    readLoop g (Except.error (GHErr.errorResponse s0)) next fuel =
      (Sum.inr (Except.ok tr), k + 1, List.replicate (k + 1) github_team_api_wait) := by
  intro k
  induction k with
  | zero =>
    intro fuel next s0 hk hs0 hpre hok
    cases fuel with
    | zero => omega
    | succ m =>
      have h0 : g next = Except.ok tr := by simpa using hok
      simp [readLoop, hs0, h0, readLoop_ok, List.replicate]
  | succ k2 ih =>
    intro fuel next s0 hk hs0 hpre hok
    cases fuel with
    | zero => omega
    | succ m =>
      obtain ⟨s1, hs1, hs1ne⟩ := hpre 0 (Nat.succ_pos k2)
      have hs1x : g next = Except.error (GHErr.errorResponse s1) := by simpa using hs1
      have hrec := ih m (next + 1) s1 (by omega) hs1ne
        (fun j hj => by
          obtain ⟨s2, h2, h2ne⟩ := hpre (j + 1) (by omega)
          exact ⟨s2, by rw [show next + 1 + j = next + (j + 1) by omega]; exact h2, h2ne⟩)
        (by rw [show next + 1 + k2 = next + (k2 + 1) by omega]; exact hok)
      simp [readLoop, hs0, hs1x, hrec, List.replicate_succ]

theorem readLoop_bounded (g : Nat → GetOutcome) :
    ∀ (fuel : Nat) (cur : GetOutcome) (next : Nat),
    ∃ n, n ≤ fuel ∧ (readLoop g cur next fuel).2.1 = n ∧
      (readLoop g cur next fuel).2.2 = List.replicate n github_team_api_wait := by
  intro fuel
  induction fuel with
  | zero => intro cur next; exact ⟨0, by omega, rfl, rfl⟩
  | succ m ih =>
    intro cur next
    cases cur with
    | ok tr => exact ⟨0, by omega, rfl, rfl⟩
    | error e =>
      cases e with
      | errorResponse status =>
        by_cases hs : status = statusNotModified
        · exact ⟨0, by omega, by simp [readLoop, hs], by simp [readLoop, hs]⟩
        · obtain ⟨n, hn, h1, h2⟩ := ih (g next) (next + 1)
          refine ⟨n + 1, by omega, ?_, ?_⟩
          · simp [readLoop, hs, h1]
          · simp [readLoop, hs, h2, List.replicate_succ]
      | other msg => exact ⟨0, by omega, rfl, rfl⟩
      | unconvertibleId s => exact ⟨0, by omega, rfl, rfl⟩

/-! ## Sample data used by witnesses and counterexamples -/

/-- A concrete resource-data value with a parseable id and no parent. -/
def sampleD : ResourceData :=
  ⟨"42", "team-a", "a demo team", "secret", "", "", false, "team-a", "etag0", "node0", 3⟩

/-- A concrete remote team. -/
def sampleTeam : Team :=
  ⟨7, "team-a", "a demo team", "closed", some 9, "dn", "team-a", "node7", 4⟩

/-- A concrete response. -/
def sampleResp : Response := ⟨"etag1"⟩

/-- An oracle that reports not-found on every attempt. -/
def all404 : Nat → GetOutcome := fun _ => Except.error (GHErr.errorResponse statusNotFound)

/-! ## Claim theorems -/

/-- Claim C2: for every identifier whose remote lookup reports not-found on
the initial attempt and on every retry attempt, Read clears the stored
identifier (sets it to the empty string) and returns without error, after
issuing all `github_team_api_retry + 1` calls. -/
theorem read_persistent_not_found_clears_id
    (g : Nat → GetOutcome) (d : ResourceData) (i : Int)
    (hid : parseInt64 d.rid = some i)
    (h404 : ∀ k, k ≤ github_team_api_retry →
      g k = Except.error (GHErr.errorResponse statusNotFound)) :
    (resourceGithubTeamRead g d).err = none ∧
    (resourceGithubTeamRead g d).d = { d with rid := "" } ∧
    (resourceGithubTeamRead g d).calls = github_team_api_retry + 1 := by
  have h0 : g 0 = Except.error (GHErr.errorResponse statusNotFound) := h404 0 (by omega)
  have hloop := readLoop_all_not_found g github_team_api_retry 1
    (fun j hj => h404 (1 + j) (by omega))
  simp [resourceGithubTeamRead, hid, h0, hloop, readFinish,
    (show statusNotFound ≠ statusNotModified by decide)]

/-- Witness for C2 at the concrete input `sampleD` with an oracle returning
not-found on every attempt. -/
theorem read_persistent_not_found_clears_id_witness :
    parseInt64 sampleD.rid = some 42 ∧
    (∀ k, k ≤ github_team_api_retry →
      all404 k = Except.error (GHErr.errorResponse statusNotFound)) ∧
    ((resourceGithubTeamRead all404 sampleD).err = none ∧
     (resourceGithubTeamRead all404 sampleD).d = { sampleD with rid := "" } ∧
     (resourceGithubTeamRead all404 sampleD).calls = github_team_api_retry + 1) :=
  ⟨by decide, fun k hk => rfl,
   read_persistent_not_found_clears_id all404 sampleD 42 (by decide) (fun k hk => rfl)⟩

/-- An oracle whose first call fails with an error that is not a
`*github.ErrorResponse` and whose later calls succeed. -/
def netFailGet : Nat → GetOutcome := fun n =>
  if n = 0 then Except.error (GHErr.other "network failure")
  else Except.ok (sampleTeam, sampleResp)

/-- Claim C3 counterexample: attempt 0 fails with a remote error that is not
a `*github.ErrorResponse` (and not not-modified), and attempt 1 — well
within the retry budget — would succeed; the claim says Read retries every
remote error other than not-modified and returns the successful state, but
the source returns the error after a single call, because the retry loop
only retries errors that pass the `err.(*github.ErrorResponse)` type
assertion. -/
theorem read_non_error_response_not_retried_counterexample :
    netFailGet 1 = Except.ok (sampleTeam, sampleResp) ∧
    (resourceGithubTeamRead netFailGet sampleD).err = some (GHErr.other "network failure") ∧
    (resourceGithubTeamRead netFailGet sampleD).calls = 1 ∧
    (resourceGithubTeamRead netFailGet sampleD).d = sampleD :=
  ⟨rfl, rfl, rfl, rfl⟩

/-- Claim C3 as amended: Read retries every remote error that is a
`*github.ErrorResponse` with a status other than not-modified — including
not-found — up to the fixed retry count with a fixed delay (an error that is
not an ErrorResponse propagates immediately instead); if some attempt `k`
within the budget succeeds, Read returns the successful remote state,
populating name, description, privacy, parent, slug, etc., after exactly
`k + 1` calls. -/
theorem read_retries_error_response_until_success
    (g : Nat → GetOutcome) (d : ResourceData) (i : Int) (team : Team) (resp : Response)
    (k : Nat) (hid : parseInt64 d.rid = some i) (hk : k ≤ github_team_api_retry)
    (hpre : ∀ j, j < k →
      ∃ s, g j = Except.error (GHErr.errorResponse s) ∧ s ≠ statusNotModified)
    (hok : g k = Except.ok (team, resp)) :
    (resourceGithubTeamRead g d).err = none ∧
    (resourceGithubTeamRead g d).d = applyTeam d team resp ∧
    (resourceGithubTeamRead g d).calls = k + 1 := by
  cases k with
  | zero =>
    have hloop := readLoop_ok g (team, resp) github_team_api_retry 1
    simp [resourceGithubTeamRead, hid, hok, hloop, readFinish]
  | succ k2 =>
    obtain ⟨s0, hs0, hs0ne⟩ := hpre 0 (Nat.succ_pos k2)
    have hloop := readLoop_success g (team, resp) k2 github_team_api_retry 1 s0
      (by omega) hs0ne
      (fun j hj => by
        obtain ⟨s2, h2, h2ne⟩ := hpre (j + 1) (by omega)
        exact ⟨s2, by rw [show 1 + j = j + 1 by omega]; exact h2, h2ne⟩)
      (by rw [show 1 + k2 = k2 + 1 by omega]; exact hok)
    simp [resourceGithubTeamRead, hid, hs0, hloop, readFinish]

/-- An oracle that reports not-found on the first three attempts and then
succeeds. -/
def recoverGet : Nat → GetOutcome := fun n =>
  if n < 3 then Except.error (GHErr.errorResponse statusNotFound)
  else Except.ok (sampleTeam, sampleResp)

/-- Witness for the amended C3: three not-found responses followed by a
success make Read return the populated state after four calls. -/
theorem read_retries_error_response_until_success_witness :
    parseInt64 sampleD.rid = some 42 ∧ 3 ≤ github_team_api_retry ∧
    (∀ j, j < 3 →
      ∃ s, recoverGet j = Except.error (GHErr.errorResponse s) ∧ s ≠ statusNotModified) ∧
    recoverGet 3 = Except.ok (sampleTeam, sampleResp) ∧
    ((resourceGithubTeamRead recoverGet sampleD).err = none ∧
     (resourceGithubTeamRead recoverGet sampleD).d = applyTeam sampleD sampleTeam sampleResp ∧
     (resourceGithubTeamRead recoverGet sampleD).calls = 3 + 1) :=
  ⟨by decide, by decide,
   fun j hj => ⟨statusNotFound, by simp [recoverGet, hj], by decide⟩, rfl,
   read_retries_error_response_until_success recoverGet sampleD 42 sampleTeam sampleResp 3
     (by decide) (by decide)
     (fun j hj => ⟨statusNotFound, by simp [recoverGet, hj], by decide⟩) rfl⟩

/-- Claim C5: when the remote responds not-modified to the conditional read,
Read returns no error and writes no field of the state — a no-op after a
single call. -/
theorem read_not_modified_is_noop
    (g : Nat → GetOutcome) (d : ResourceData) (i : Int)
    (hid : parseInt64 d.rid = some i)
    (h304 : g 0 = Except.error (GHErr.errorResponse statusNotModified)) :
    (resourceGithubTeamRead g d).err = none ∧
    (resourceGithubTeamRead g d).d = d ∧
    (resourceGithubTeamRead g d).calls = 1 := by
  have hloop := readLoop_not_modified g 1 github_team_api_retry (by decide)
  simp [resourceGithubTeamRead, hid, h304, hloop, readFinish]

/-- An oracle modelling an unchanged remote object: every conditional read
short-circuits with not-modified. -/
def all304 : Nat → GetOutcome := fun _ => Except.error (GHErr.errorResponse statusNotModified)

/-- Witness for C5 at the concrete input `sampleD` against an unchanged
remote object. -/
theorem read_not_modified_is_noop_witness :
    parseInt64 sampleD.rid = some 42 ∧
    all304 0 = Except.error (GHErr.errorResponse statusNotModified) ∧
    ((resourceGithubTeamRead all304 sampleD).err = none ∧
     (resourceGithubTeamRead all304 sampleD).d = sampleD ∧
     (resourceGithubTeamRead all304 sampleD).calls = 1) :=
  ⟨by decide, rfl, read_not_modified_is_noop all304 sampleD 42 (by decide) rfl⟩

/-- Claim C1 (evaluation of the code at the failing input): the delete call
fails with a transient error while the team still exists, so the confirming
re-fetch succeeds; because the re-fetch reassigns the `err` variable that
held the delete error, Delete returns nil (success) with the identifier
still set, instead of propagating the original delete error as the claim
requires. -/
theorem delete_error_team_still_exists_returns_success :
    (resourceGithubTeamDelete (Except.error (GHErr.other "delete failed"))
      (Except.ok sampleTeam) sampleD).err = none ∧
    (resourceGithubTeamDelete (Except.error (GHErr.other "delete failed"))
      (Except.ok sampleTeam) sampleD).d = sampleD ∧
    (resourceGithubTeamDelete (Except.error (GHErr.other "delete failed"))
      (Except.ok sampleTeam) sampleD).deleteCalls = 1 ∧
    (resourceGithubTeamDelete (Except.error (GHErr.other "delete failed"))
      (Except.ok sampleTeam) sampleD).getCalls = 1 :=
  ⟨rfl, rfl, rfl, rfl⟩

/-- Claim C7: Update resolves the parent reference with a loop extensionally
identical to the one in Create: for every sequence of lookup outcomes the
two produce the same resolved id or error, the same number of lookup calls,
and the same sleeps. -/
theorem update_parent_resolution_matches_create (g : Nat → Except GHErr Int) :
    resolveParentUpdate g = resolveParentCreate g := by
  simp only [resolveParentUpdate, resolveParentCreate, updateParentLoop_eq_createParentLoop]

/-! ## Trace lemmas for Create and Update -/

theorem createAfterParent_trace (ct : NewTeam → Except GHErr Team)
    (maint ldap : Except GHErr Unit) (get : Nat → GetOutcome) (d : ResourceData)
    (nt : NewTeam) (pcalls : Nat) (psleeps : List Nat) :
    (createAfterParent ct maint ldap get d nt pcalls psleeps).trace.parentLookupCalls = pcalls ∧
    (createAfterParent ct maint ldap get d nt pcalls psleeps).trace.createdArg = some nt ∧
    (createAfterParent ct maint ldap get d nt pcalls psleeps).trace.createCalls = 1 := by
  unfold createAfterParent
  repeat' first
  | exact ⟨rfl, rfl, rfl⟩
  | split
  | dsimp only

theorem updateAfterParent_editCalls (et : Int → NewTeam → Except GHErr Team)
    (ldap : Except GHErr Unit) (get : Nat → GetOutcome) (b : Bool) (d : ResourceData)
    (nt : NewTeam) (pcalls : Nat) (psleeps : List Nat) (tid : Int)
    (hid : parseInt64 d.rid = some tid) :
    (updateAfterParent et ldap get b d nt pcalls psleeps).trace.editCalls = 1 := by
  simp only [updateAfterParent, hid]
  repeat' first
  | rfl
  | split

theorem updateAfterParent_no_change_no_ldap (et : Int → NewTeam → Except GHErr Team)
    (ldap : Except GHErr Unit) (get : Nat → GetOutcome) (d : ResourceData)
    (nt : NewTeam) (pcalls : Nat) (psleeps : List Nat) (tid : Int)
    (hid : parseInt64 d.rid = some tid) :
    (updateAfterParent et ldap get false d nt pcalls psleeps).trace.ldapCalls = 0 := by
  simp only [updateAfterParent, hid]
  repeat' first
  | rfl
  | split

theorem updateAfterParent_change_ldap (et : Int → NewTeam → Except GHErr Team)
    (ldap : Except GHErr Unit) (get : Nat → GetOutcome) (d : ResourceData)
    (nt : NewTeam) (pcalls : Nat) (psleeps : List Nat) (tid : Int) (team : Team)
    (hid : parseInt64 d.rid = some tid) (hok : et tid nt = Except.ok team) :
    (updateAfterParent et ldap get true d nt pcalls psleeps).trace.ldapCalls = 1 := by
  simp only [updateAfterParent, hid, hok]
  repeat' first
  | rfl
  | split

/-- Claim C4: with a parent reference set, Create resolves it by bounded
retry on any lookup error.  If the lookup first succeeds at attempt `k`
within the budget, Create proceeds to the create call with the resolved
parent id after exactly `k + 1` lookups; if every lookup fails, Create
returns the last lookup error after exactly `github_team_api_retry + 1`
lookup calls (the initial attempt plus the fixed retry count) without
issuing the create call. -/
theorem create_parent_lookup_bounded_retry
    (g : Nat → Except GHErr Int) (ct : NewTeam → Except GHErr Team)
    (maint ldap : Except GHErr Unit) (get : Nat → GetOutcome) (d : ResourceData)
    (hp : d.parent_team_id ≠ "") :
    (∀ k v, k ≤ github_team_api_retry →
      (∀ j, j < k → ∃ e, g j = Except.error e) → g k = Except.ok v →
      (resourceGithubTeamCreate g ct maint ldap get d).trace.parentLookupCalls = k + 1 ∧
      (resourceGithubTeamCreate g ct maint ldap get d).trace.createdArg =
        some { name := d.name, description := d.description, privacy := d.privacy,
               parentTeamID := some v } ∧
      (resourceGithubTeamCreate g ct maint ldap get d).trace.createCalls = 1) ∧
    (∀ e, (∀ j, j ≤ github_team_api_retry → ∃ e2, g j = Except.error e2) →
      g github_team_api_retry = Except.error e →
      (resourceGithubTeamCreate g ct maint ldap get d).err = some e ∧
      (resourceGithubTeamCreate g ct maint ldap get d).trace.parentLookupCalls =
        github_team_api_retry + 1 ∧
      (resourceGithubTeamCreate g ct maint ldap get d).trace.createCalls = 0) := by
  constructor
  · intro k v hk hpre hok
    have hres : resolveParentCreate g =
        (Except.ok v, k + 1, List.replicate k github_team_api_wait) := by
      cases k with
      | zero => simp [resolveParentCreate, hok, createParentLoop_ok]
      | succ k2 =>
        obtain ⟨e0, he0⟩ := hpre 0 (Nat.succ_pos k2)
        have hloop := createParentLoop_success g v k2 github_team_api_retry 1 e0 (by omega)
          (fun j hj => by
            obtain ⟨e2, he2⟩ := hpre (j + 1) (by omega)
            exact ⟨e2, by rw [show 1 + j = j + 1 by omega]; exact he2⟩)
          (by rw [show 1 + k2 = k2 + 1 by omega]; exact hok)
        simp [resolveParentCreate, he0, hloop]
    have hcreate : resourceGithubTeamCreate g ct maint ldap get d =
        createAfterParent ct maint ldap get d
          { name := d.name, description := d.description, privacy := d.privacy,
            parentTeamID := some v } (k + 1) (List.replicate k github_team_api_wait) := by
      simp [resourceGithubTeamCreate, hp, hres]
    rw [hcreate]
    exact createAfterParent_trace ct maint ldap get d _ (k + 1) _
  · intro e hall hlast
    obtain ⟨e0, he0⟩ := hall 0 (by omega)
    have hR : 0 < github_team_api_retry := by decide
    have hloop := createParentLoop_exhaust g github_team_api_retry 1 e0 e hR
      (fun j hj => by
        obtain ⟨e2, he2⟩ := hall (j + 1) (by omega)
        exact ⟨e2, by rw [show 1 + j = j + 1 by omega]; exact he2⟩)
      (by
        rw [show 1 + (github_team_api_retry - 1) = github_team_api_retry by omega]
        exact hlast)
    have hres : resolveParentCreate g =
        (Except.error e, github_team_api_retry + 1,
          List.replicate github_team_api_retry github_team_api_wait) := by
      simp [resolveParentCreate, he0, hloop]
    simp [resourceGithubTeamCreate, hp, hres]

/-- A parent lookup oracle that fails on every attempt. -/
def gFail : Nat → Except GHErr Int := fun _ => Except.error (GHErr.other "parent lookup failed")

/-- `sampleD` with a parent reference set. -/
def dParent : ResourceData := { sampleD with parent_team_id := "parent-team" }

/-- A create-call oracle that always succeeds with `sampleTeam`. -/
def ctOk : NewTeam → Except GHErr Team := fun _ => Except.ok sampleTeam

/-- Witness for C4: a parent lookup that never resolves makes Create return
the last lookup error after eleven lookups and zero create calls. -/
theorem create_parent_lookup_bounded_retry_witness :
    dParent.parent_team_id ≠ "" ∧
    ((resourceGithubTeamCreate gFail ctOk (Except.ok ()) (Except.ok ()) all404 dParent).err =
        some (GHErr.other "parent lookup failed") ∧
     (resourceGithubTeamCreate gFail ctOk (Except.ok ()) (Except.ok ())
        all404 dParent).trace.parentLookupCalls = github_team_api_retry + 1 ∧
     (resourceGithubTeamCreate gFail ctOk (Except.ok ()) (Except.ok ())
        all404 dParent).trace.createCalls = 0) :=
  ⟨by decide,
   (create_parent_lookup_bounded_retry gFail ctOk (Except.ok ()) (Except.ok ()) all404 dParent
      (by decide)).2 (GHErr.other "parent lookup failed")
     (fun j hj => ⟨GHErr.other "parent lookup failed", rfl⟩) rfl⟩

/-- Claim C6: Create issues exactly one create call (no retry on it); a
failing post-create side effect — the default-maintainer removal when
`create_default_maintainer` is false, or the LDAP mapping when `ldap_dn` is
set — fails the whole operation with that error, while the resource data is
left unchanged (in particular the identifier is never set) and the final
Read is never reached; no rollback call of any kind exists in Create. -/
theorem create_single_call_side_effect_failure_no_rollback
    (g : Nat → Except GHErr Int) (ct : NewTeam → Except GHErr Team)
    (maint ldap : Except GHErr Unit) (get : Nat → GetOutcome) (d : ResourceData) (team : Team)
    (hp : d.parent_team_id = "")
    (hok : ct { name := d.name, description := d.description, privacy := d.privacy,
                parentTeamID := none } = Except.ok team) :
    (resourceGithubTeamCreate g ct maint ldap get d).trace.createCalls = 1 ∧
    (∀ e, d.create_default_maintainer = false → maint = Except.error e →
      (resourceGithubTeamCreate g ct maint ldap get d).err = some e ∧
      (resourceGithubTeamCreate g ct maint ldap get d).d = d ∧
      (resourceGithubTeamCreate g ct maint ldap get d).trace.ldapCalls = 0 ∧
      (resourceGithubTeamCreate g ct maint ldap get d).trace.readCalls = 0) ∧
    (∀ e, d.create_default_maintainer = true → d.ldap_dn ≠ "" → ldap = Except.error e →
      (resourceGithubTeamCreate g ct maint ldap get d).err = some e ∧
      (resourceGithubTeamCreate g ct maint ldap get d).d = d ∧
      (resourceGithubTeamCreate g ct maint ldap get d).trace.readCalls = 0) := by
  refine ⟨?_, ?_, ?_⟩
  · have h := createAfterParent_trace ct maint ldap get d
      { name := d.name, description := d.description, privacy := d.privacy,
        parentTeamID := none } 0 []
    simpa [resourceGithubTeamCreate, hp] using h.2.2
  · intro e hm he
    simp [resourceGithubTeamCreate, hp, createAfterParent, hok, hm, he]
  · intro e hm hl he
    simp [resourceGithubTeamCreate, hp, createAfterParent, hok, hm, hl, he]

/-- Witness for C6: a failing maintainer removal after a successful create
call fails the operation without touching the identifier. -/
theorem create_single_call_side_effect_failure_no_rollback_witness :
    sampleD.parent_team_id = "" ∧
    ctOk { name := sampleD.name, description := sampleD.description,
           privacy := sampleD.privacy, parentTeamID := none } = Except.ok sampleTeam ∧
    sampleD.create_default_maintainer = false ∧
    ((resourceGithubTeamCreate gFail ctOk (Except.error (GHErr.other "maintainer removal failed"))
        (Except.ok ()) all404 sampleD).trace.createCalls = 1 ∧
     (resourceGithubTeamCreate gFail ctOk (Except.error (GHErr.other "maintainer removal failed"))
        (Except.ok ()) all404 sampleD).err = some (GHErr.other "maintainer removal failed") ∧
     (resourceGithubTeamCreate gFail ctOk (Except.error (GHErr.other "maintainer removal failed"))
        (Except.ok ()) all404 sampleD).d = sampleD) :=
  ⟨rfl, rfl, rfl,
   (create_single_call_side_effect_failure_no_rollback gFail ctOk
      (Except.error (GHErr.other "maintainer removal failed")) (Except.ok ()) all404 sampleD
      sampleTeam rfl rfl).1,
   ((create_single_call_side_effect_failure_no_rollback gFail ctOk
      (Except.error (GHErr.other "maintainer removal failed")) (Except.ok ()) all404 sampleD
      sampleTeam rfl rfl).2.1 (GHErr.other "maintainer removal failed") rfl rfl).1,
   ((create_single_call_side_effect_failure_no_rollback gFail ctOk
      (Except.error (GHErr.other "maintainer removal failed")) (Except.ok ()) all404 sampleD
      sampleTeam rfl rfl).2.1 (GHErr.other "maintainer removal failed") rfl rfl).2.1⟩

/-- Claim C8: once Update reaches the edit step (parent resolution passed,
id parseable), the edit call is issued exactly once whatever its outcome;
the LDAP-mapping call is issued only when the `ldap_dn` field changed
(`hasChangeLdap`), and never when it did not change, regardless of the
field's value; when it did change and the edit succeeded, it is issued
exactly once. -/
theorem update_ldap_only_on_change_single_edit
    (g : Nat → Except GHErr Int) (et : Int → NewTeam → Except GHErr Team)
    (ldap : Except GHErr Unit) (get : Nat → GetOutcome) (d : ResourceData) (tid : Int)
    (hp : d.parent_team_id = "") (hid : parseInt64 d.rid = some tid) :
    (∀ b, (resourceGithubTeamUpdate g et ldap get b d).trace.editCalls = 1) ∧
    (resourceGithubTeamUpdate g et ldap get false d).trace.ldapCalls = 0 ∧
    (∀ team, et tid { name := d.name, description := d.description, privacy := d.privacy,
                      parentTeamID := none } = Except.ok team →
      (resourceGithubTeamUpdate g et ldap get true d).trace.ldapCalls = 1) := by
  refine ⟨?_, ?_, ?_⟩
  · intro b
    have h := updateAfterParent_editCalls et ldap get b d
      { name := d.name, description := d.description, privacy := d.privacy,
        parentTeamID := none } 0 [] tid hid
    simpa [resourceGithubTeamUpdate, hp] using h
  · have h := updateAfterParent_no_change_no_ldap et ldap get d
      { name := d.name, description := d.description, privacy := d.privacy,
        parentTeamID := none } 0 [] tid hid
    simpa [resourceGithubTeamUpdate, hp] using h
  · intro team hok
    have h := updateAfterParent_change_ldap et ldap get d
      { name := d.name, description := d.description, privacy := d.privacy,
        parentTeamID := none } 0 [] tid team hid hok
    simpa [resourceGithubTeamUpdate, hp] using h

/-- An edit-call oracle that always succeeds with `sampleTeam`. -/
def etOk : Int → NewTeam → Except GHErr Team := fun _ _ => Except.ok sampleTeam

/-- Witness for C8 at concrete inputs: with an unchanged `ldap_dn`, Update
issues one edit call and no LDAP call; with a changed `ldap_dn` and a
successful edit, one LDAP call. -/
theorem update_ldap_only_on_change_single_edit_witness :
    sampleD.parent_team_id = "" ∧ parseInt64 sampleD.rid = some 42 ∧
    ((resourceGithubTeamUpdate gFail etOk (Except.ok ()) all404 false sampleD).trace.editCalls = 1 ∧
     (resourceGithubTeamUpdate gFail etOk (Except.ok ()) all404 false sampleD).trace.ldapCalls = 0 ∧
     (resourceGithubTeamUpdate gFail etOk (Except.ok ()) all404 true sampleD).trace.ldapCalls = 1) :=
  ⟨rfl, by decide,
   (update_ldap_only_on_change_single_edit gFail etOk (Except.ok ()) all404 sampleD 42 rfl
      (by decide)).1 false,
   (update_ldap_only_on_change_single_edit gFail etOk (Except.ok ()) all404 sampleD 42 rfl
      (by decide)).2.1,
   (update_ldap_only_on_change_single_edit gFail etOk (Except.ok ()) all404 sampleD 42 rfl
      (by decide)).2.2 sampleTeam rfl⟩

/-! ## Call-count bounds -/

theorem read_calls_bound (get : Nat → GetOutcome) (d : ResourceData) :
    (resourceGithubTeamRead get d).calls ≤ github_team_api_retry + 1 ∧
    ∃ n, n ≤ github_team_api_retry ∧
      (resourceGithubTeamRead get d).sleeps = List.replicate n github_team_api_wait := by
  cases hparse : parseInt64 d.rid with
  | none =>
    refine ⟨?_, 0, by omega, ?_⟩ <;> simp [resourceGithubTeamRead, hparse]
  | some i =>
    obtain ⟨n, hn, h1, h2⟩ := readLoop_bounded get github_team_api_retry (get 0) 1
    refine ⟨?_, n, hn, ?_⟩
    · simp only [resourceGithubTeamRead, hparse]
      rw [h1]
      omega
    · simp only [resourceGithubTeamRead, hparse]
      exact h2

theorem resolveParentCreate_bound (g : Nat → Except GHErr Int) :
    (resolveParentCreate g).2.1 ≤ github_team_api_retry + 1 ∧
    ∃ n, n ≤ github_team_api_retry ∧
      (resolveParentCreate g).2.2 = List.replicate n github_team_api_wait := by
  obtain ⟨n, hn, h1, h2⟩ := createParentLoop_bounded g github_team_api_retry (g 0) 1
  refine ⟨?_, n, hn, ?_⟩
  · simp only [resolveParentCreate]
    rw [h1]
    omega
  · simp only [resolveParentCreate]
    exact h2

theorem resolveParentUpdate_bound (g : Nat → Except GHErr Int) :
    (resolveParentUpdate g).2.1 ≤ github_team_api_retry + 1 ∧
    ∃ n, n ≤ github_team_api_retry ∧
      (resolveParentUpdate g).2.2 = List.replicate n github_team_api_wait := by
  rw [update_parent_resolution_matches_create]
  exact resolveParentCreate_bound g

theorem createAfterParent_bounds (ct : NewTeam → Except GHErr Team)
    (maint ldap : Except GHErr Unit) (get : Nat → GetOutcome) (d : ResourceData)
    (nt : NewTeam) (pcalls : Nat) (psleeps : List Nat) :
    (createAfterParent ct maint ldap get d nt pcalls psleeps).trace.maintainerCalls ≤ 1 ∧
    (createAfterParent ct maint ldap get d nt pcalls psleeps).trace.ldapCalls ≤ 1 ∧
    (createAfterParent ct maint ldap get d nt pcalls psleeps).trace.readCalls ≤
      github_team_api_retry + 1 := by
  unfold createAfterParent
  repeat' first
  | exact ⟨by decide, by decide, (read_calls_bound get _).1⟩
  | exact ⟨by decide, by decide, by decide⟩
  | split
  | dsimp only

theorem updateAfterParent_bounds (et : Int → NewTeam → Except GHErr Team)
    (ldap : Except GHErr Unit) (get : Nat → GetOutcome) (b : Bool) (d : ResourceData)
    (nt : NewTeam) (pcalls : Nat) (psleeps : List Nat) :
    (updateAfterParent et ldap get b d nt pcalls psleeps).trace.parentLookupCalls = pcalls ∧
    (updateAfterParent et ldap get b d nt pcalls psleeps).trace.editCalls ≤ 1 ∧
    (updateAfterParent et ldap get b d nt pcalls psleeps).trace.ldapCalls ≤ 1 ∧
    (updateAfterParent et ldap get b d nt pcalls psleeps).trace.readCalls ≤
      github_team_api_retry + 1 := by
  unfold updateAfterParent
  repeat' first
  | exact ⟨rfl, by decide, by decide, (read_calls_bound get _).1⟩
  | exact ⟨rfl, by decide, by decide, by decide⟩
  | split
  | dsimp only

theorem create_calls_bound (g : Nat → Except GHErr Int) (ct : NewTeam → Except GHErr Team)
    (maint ldap : Except GHErr Unit) (get : Nat → GetOutcome) (d : ResourceData) :
    (resourceGithubTeamCreate g ct maint ldap get d).trace.parentLookupCalls ≤
      github_team_api_retry + 1 ∧
    (resourceGithubTeamCreate g ct maint ldap get d).trace.createCalls ≤ 1 ∧
    (resourceGithubTeamCreate g ct maint ldap get d).trace.maintainerCalls ≤ 1 ∧
    (resourceGithubTeamCreate g ct maint ldap get d).trace.ldapCalls ≤ 1 ∧
    (resourceGithubTeamCreate g ct maint ldap get d).trace.readCalls ≤
      github_team_api_retry + 1 := by
  by_cases hp : d.parent_team_id = ""
  · have h1 := createAfterParent_trace ct maint ldap get d
      { name := d.name, description := d.description, privacy := d.privacy,
        parentTeamID := none } 0 []
    have h2 := createAfterParent_bounds ct maint ldap get d
      { name := d.name, description := d.description, privacy := d.privacy,
        parentTeamID := none } 0 []
    have hc : resourceGithubTeamCreate g ct maint ldap get d =
        createAfterParent ct maint ldap get d
          { name := d.name, description := d.description, privacy := d.privacy,
            parentTeamID := none } 0 [] := by
      simp [resourceGithubTeamCreate, hp]
    rw [hc]
    exact ⟨by rw [h1.1]; omega, by rw [h1.2.2], h2⟩
  · have hres := resolveParentCreate_bound g
    cases hpr : (resolveParentCreate g).1 with
    | error e =>
      have hc : resourceGithubTeamCreate g ct maint ldap get d =
          ⟨some e, d, ⟨(resolveParentCreate g).2.1, 0, none, 0, 0, 0,
            (resolveParentCreate g).2.2⟩⟩ := by
        simp [resourceGithubTeamCreate, hp, hpr]
      rw [hc]
      exact ⟨hres.1, Nat.zero_le _, Nat.zero_le _, Nat.zero_le _, Nat.zero_le _⟩
    | ok pid =>
      have h1 := createAfterParent_trace ct maint ldap get d
        { name := d.name, description := d.description, privacy := d.privacy,
          parentTeamID := some pid } (resolveParentCreate g).2.1 (resolveParentCreate g).2.2
      have h2 := createAfterParent_bounds ct maint ldap get d
        { name := d.name, description := d.description, privacy := d.privacy,
          parentTeamID := some pid } (resolveParentCreate g).2.1 (resolveParentCreate g).2.2
      have hc : resourceGithubTeamCreate g ct maint ldap get d =
          createAfterParent ct maint ldap get d
            { name := d.name, description := d.description, privacy := d.privacy,
              parentTeamID := some pid } (resolveParentCreate g).2.1
            (resolveParentCreate g).2.2 := by
        simp [resourceGithubTeamCreate, hp, hpr]
      rw [hc]
      exact ⟨by rw [h1.1]; exact hres.1, by rw [h1.2.2], h2⟩

theorem update_calls_bound (g : Nat → Except GHErr Int)
    (et : Int → NewTeam → Except GHErr Team) (ldap : Except GHErr Unit)
    (get : Nat → GetOutcome) (b : Bool) (d : ResourceData) :
    (resourceGithubTeamUpdate g et ldap get b d).trace.parentLookupCalls ≤
      github_team_api_retry + 1 ∧
    (resourceGithubTeamUpdate g et ldap get b d).trace.editCalls ≤ 1 ∧
    (resourceGithubTeamUpdate g et ldap get b d).trace.ldapCalls ≤ 1 ∧
    (resourceGithubTeamUpdate g et ldap get b d).trace.readCalls ≤
      github_team_api_retry + 1 := by
  by_cases hp : d.parent_team_id = ""
  · have h2 := updateAfterParent_bounds et ldap get b d
      { name := d.name, description := d.description, privacy := d.privacy,
        parentTeamID := none } 0 []
    have hc : resourceGithubTeamUpdate g et ldap get b d =
        updateAfterParent et ldap get b d
          { name := d.name, description := d.description, privacy := d.privacy,
            parentTeamID := none } 0 [] := by
      simp [resourceGithubTeamUpdate, hp]
    rw [hc]
    exact ⟨by rw [h2.1]; omega, h2.2⟩
  · have hres := resolveParentUpdate_bound g
    cases hpr : (resolveParentUpdate g).1 with
    | error e =>
      have hc : resourceGithubTeamUpdate g et ldap get b d =
          ⟨some e, d, ⟨(resolveParentUpdate g).2.1, 0, 0, 0,
            (resolveParentUpdate g).2.2⟩⟩ := by
        simp [resourceGithubTeamUpdate, hp, hpr]
      rw [hc]
      exact ⟨hres.1, Nat.zero_le _, Nat.zero_le _, Nat.zero_le _⟩
    | ok pid =>
      have h2 := updateAfterParent_bounds et ldap get b d
        { name := d.name, description := d.description, privacy := d.privacy,
          parentTeamID := some pid } (resolveParentUpdate g).2.1 (resolveParentUpdate g).2.2
      have hc : resourceGithubTeamUpdate g et ldap get b d =
          updateAfterParent et ldap get b d
            { name := d.name, description := d.description, privacy := d.privacy,
              parentTeamID := some pid } (resolveParentUpdate g).2.1
            (resolveParentUpdate g).2.2 := by
        simp [resourceGithubTeamUpdate, hp, hpr]
      rw [hc]
      exact ⟨by rw [h2.1]; exact hres.1, h2.2⟩

/-- Claim C9: the retry policy is the two constants (10 attempts, 5 second
wait) and nothing else: every retry loop in Create, Read and Update issues
at most `github_team_api_retry + 1` calls and sleeps exactly
`github_team_api_wait` seconds between attempts — the same duration every
time, so no exponential backoff and no jitter — at most
`github_team_api_retry` times; consequently every operation issues a
statically bounded number of remote calls (and, being structurally
recursive on the fixed retry budget, always terminates). -/
theorem retry_loops_fixed_bound_fixed_wait :
    (github_team_api_retry = 10 ∧ github_team_api_wait = 5) ∧
    (∀ g : Nat → Except GHErr Int,
      (resolveParentCreate g).2.1 ≤ github_team_api_retry + 1 ∧
      ∃ n, n ≤ github_team_api_retry ∧
        (resolveParentCreate g).2.2 = List.replicate n github_team_api_wait) ∧
    (∀ g : Nat → Except GHErr Int,
      (resolveParentUpdate g).2.1 ≤ github_team_api_retry + 1 ∧
      ∃ n, n ≤ github_team_api_retry ∧
        (resolveParentUpdate g).2.2 = List.replicate n github_team_api_wait) ∧
    (∀ (get : Nat → GetOutcome) (d : ResourceData),
      (resourceGithubTeamRead get d).calls ≤ github_team_api_retry + 1 ∧
      ∃ n, n ≤ github_team_api_retry ∧
        (resourceGithubTeamRead get d).sleeps = List.replicate n github_team_api_wait) ∧
    (∀ (g : Nat → Except GHErr Int) (ct : NewTeam → Except GHErr Team)
        (maint ldap : Except GHErr Unit) (get : Nat → GetOutcome) (d : ResourceData),
      (resourceGithubTeamCreate g ct maint ldap get d).trace.parentLookupCalls ≤
        github_team_api_retry + 1 ∧
      (resourceGithubTeamCreate g ct maint ldap get d).trace.createCalls ≤ 1 ∧
      (resourceGithubTeamCreate g ct maint ldap get d).trace.maintainerCalls ≤ 1 ∧
      (resourceGithubTeamCreate g ct maint ldap get d).trace.ldapCalls ≤ 1 ∧
      (resourceGithubTeamCreate g ct maint ldap get d).trace.readCalls ≤
        github_team_api_retry + 1) ∧
    (∀ (g : Nat → Except GHErr Int) (et : Int → NewTeam → Except GHErr Team)
        (ldap : Except GHErr Unit) (get : Nat → GetOutcome) (b : Bool) (d : ResourceData),
      (resourceGithubTeamUpdate g et ldap get b d).trace.parentLookupCalls ≤
        github_team_api_retry + 1 ∧
      (resourceGithubTeamUpdate g et ldap get b d).trace.editCalls ≤ 1 ∧
      (resourceGithubTeamUpdate g et ldap get b d).trace.ldapCalls ≤ 1 ∧
      (resourceGithubTeamUpdate g et ldap get b d).trace.readCalls ≤
        github_team_api_retry + 1) :=
  ⟨⟨rfl, rfl⟩, resolveParentCreate_bound, resolveParentUpdate_bound, read_calls_bound,
   create_calls_bound, update_calls_bound⟩

/-- A resource-data value whose stored identifier is not a decimal integer
and whose parent reference is set. -/
def dBadId : ResourceData :=
  ⟨"abc", "team-a", "a demo team", "secret", "parent-team", "", false, "team-a",
   "etag0", "node0", 3⟩

/-- Claim C10 counterexample: with an unparseable stored id and
`parent_team_id` set, Update runs the parent-resolution lookup (a remote
call) before it parses the stored id: the lookup oracle is consulted once,
so the unconvertible-id error is not returned "without issuing any remote
API call". -/
theorem update_unparseable_id_issues_parent_lookup :
    (resourceGithubTeamUpdate (fun _ => Except.ok 5) etOk (Except.ok ()) all404
      true dBadId).err = some (GHErr.unconvertibleId "abc") ∧
    (resourceGithubTeamUpdate (fun _ => Except.ok 5) etOk (Except.ok ()) all404
      true dBadId).trace.parentLookupCalls = 1 ∧
    (resourceGithubTeamUpdate (fun _ => Except.ok 5) etOk (Except.ok ()) all404
      true dBadId).trace.editCalls = 0 :=
  ⟨rfl, rfl, rfl⟩

/-- Claim C10 as amended: for every stored identifier that is not parseable
as a decimal 64-bit integer, Read and Delete return the unconvertible-id
error immediately, with zero remote calls and the state unchanged; Update
also returns the unconvertible-id error with the state unchanged and
without issuing the edit or LDAP calls, but only after the parent-resolution
lookups when `parent_team_id` is set (the id is parsed after the parent
loop). -/
theorem unparseable_id_rejected_before_primary_calls
    (get : Nat → GetOutcome) (del : Except GHErr Unit) (refetch : Except GHErr Team)
    (g : Nat → Except GHErr Int) (et : Int → NewTeam → Except GHErr Team)
    (ldap : Except GHErr Unit) (b : Bool) (d : ResourceData)
    (hbad : parseInt64 d.rid = none) :
    ((resourceGithubTeamRead get d).err = some (GHErr.unconvertibleId d.rid) ∧
     (resourceGithubTeamRead get d).calls = 0 ∧
     (resourceGithubTeamRead get d).d = d) ∧
    ((resourceGithubTeamDelete del refetch d).err = some (GHErr.unconvertibleId d.rid) ∧
     (resourceGithubTeamDelete del refetch d).deleteCalls = 0 ∧
     (resourceGithubTeamDelete del refetch d).getCalls = 0 ∧
     (resourceGithubTeamDelete del refetch d).d = d) ∧
    (d.parent_team_id = "" →
     (resourceGithubTeamUpdate g et ldap get b d).err = some (GHErr.unconvertibleId d.rid) ∧
     (resourceGithubTeamUpdate g et ldap get b d).trace.parentLookupCalls = 0 ∧
     (resourceGithubTeamUpdate g et ldap get b d).trace.editCalls = 0 ∧
     (resourceGithubTeamUpdate g et ldap get b d).trace.ldapCalls = 0 ∧
     (resourceGithubTeamUpdate g et ldap get b d).d = d) ∧
    (∀ v, g 0 = Except.ok v →
     (resourceGithubTeamUpdate g et ldap get b d).err = some (GHErr.unconvertibleId d.rid) ∧
     (resourceGithubTeamUpdate g et ldap get b d).trace.editCalls = 0 ∧
     (resourceGithubTeamUpdate g et ldap get b d).trace.ldapCalls = 0 ∧
     (resourceGithubTeamUpdate g et ldap get b d).d = d) := by
  refine ⟨?_, ?_, ?_, ?_⟩
  · refine ⟨?_, ?_, ?_⟩ <;> simp [resourceGithubTeamRead, hbad]
  · refine ⟨?_, ?_, ?_, ?_⟩ <;> simp [resourceGithubTeamDelete, hbad]
  · intro hp
    refine ⟨?_, ?_, ?_, ?_, ?_⟩ <;>
      simp [resourceGithubTeamUpdate, hp, updateAfterParent, hbad]
  · intro v hv
    by_cases hp : d.parent_team_id = ""
    · refine ⟨?_, ?_, ?_, ?_⟩ <;>
        simp [resourceGithubTeamUpdate, hp, updateAfterParent, hbad]
    · have hres : resolveParentUpdate g = (Except.ok v, 1, []) := by
        simp [resolveParentUpdate, hv, updateParentLoop_eq_createParentLoop,
          createParentLoop_ok]
      refine ⟨?_, ?_, ?_, ?_⟩ <;>
        simp [resourceGithubTeamUpdate, hp, hres, updateAfterParent, hbad]

/-- Witness for the amended C10 at the concrete unparseable id "abc" with no
parent reference. -/
theorem unparseable_id_rejected_before_primary_calls_witness :
    parseInt64 "abc" = none ∧
    ((resourceGithubTeamRead all404 { dBadId with parent_team_id := "" }).err =
       some (GHErr.unconvertibleId "abc") ∧
     (resourceGithubTeamRead all404 { dBadId with parent_team_id := "" }).calls = 0 ∧
     (resourceGithubTeamDelete (Except.ok ()) (Except.ok sampleTeam)
       { dBadId with parent_team_id := "" }).err = some (GHErr.unconvertibleId "abc") ∧
     (resourceGithubTeamDelete (Except.ok ()) (Except.ok sampleTeam)
       { dBadId with parent_team_id := "" }).deleteCalls = 0 ∧
     (resourceGithubTeamUpdate gFail etOk (Except.ok ()) all404 false
       { dBadId with parent_team_id := "" }).err = some (GHErr.unconvertibleId "abc") ∧
     (resourceGithubTeamUpdate gFail etOk (Except.ok ()) all404 false
       { dBadId with parent_team_id := "" }).trace.parentLookupCalls = 0) := by
  have h := unparseable_id_rejected_before_primary_calls all404 (Except.ok ())
    (Except.ok sampleTeam) gFail etOk (Except.ok ()) false
    { dBadId with parent_team_id := "" } (by decide)
  exact ⟨by decide, (h.1).1, (h.1).2.1, (h.2.1).1, (h.2.1).2.1, (h.2.2.1 rfl).1,
    (h.2.2.1 rfl).2.1⟩

end GithubTeam
